import Mathlib

/-!
Verification of the RadScheduler HL7 simulator (`src/simulator/send-hl7.py`).

The Python module is embedded shallowly:

* Wall-clock reads (`datetime.now()`) become an explicit `DateTime` argument;
  the two reads inside one `create_hl7_message` call are modelled as a single
  instant, since they happen back to back in straight-line code.
* `random.randint(lo, hi)` becomes `randint lo hi v` applied to an arbitrary
  draw `v : Nat`, reduced into the inclusive range; `random.choice(pool)`
  becomes an arbitrary draw reduced modulo the pool size.
* The `ValueError` that tuple unpacking of `patient_name.split(' ')` can raise
  is modelled by an `Option` result: `none` means the exception escapes.
* Socket I/O in `send_message` is modelled by a `NetEvent` parameter saying
  which step failed (with the exception text) or what response arrived; the
  surrounding `try/except` turns every failure into `(false, text)`.
* `print` and `time.sleep` calls touch no program state and are omitted.
-/

namespace HL7Sim

/-- The character for one decimal digit `n < 10`. -/
def digitChar (n : Nat) : Char := Char.ofNat (48 + n)

/-- Decimal digits of `n`, most significant first; `[]` for `0`.
The first argument is recursion fuel (any amount exceeding `n` works). -/
def decAux : Nat → Nat → List Char
  | 0, _ => []
  | fuel + 1, n => if n = 0 then [] else decAux fuel (n / 10) ++ [digitChar (n % 10)]

/-- Decimal digits of `n`, most significant first; `[]` for `0`. -/
def decDigits (n : Nat) : List Char := decAux (n + 1) n

/-- Decimal rendering of a natural number, as Python `str` / `%d` prints it. -/
def decRepr (n : Nat) : String := if n = 0 then "0" else String.mk (decDigits n)

/-- Zero-pad on the left to width `w` (no-op when already at least that long). -/
def zfill (w : Nat) (s : String) : String :=
  String.mk (List.replicate (w - s.length) '0') ++ s

/-- Python `f"{n:0wd}"` for a nonnegative integer `n`. -/
def pyFmt (w n : Nat) : String := zfill w (decRepr n)

/-- Calendar datetime: the fields of Python `datetime` that `strftime` reads. -/
structure DateTime where
  year : Nat
  month : Nat
  day : Nat
  hour : Nat
  minute : Nat
  second : Nat
deriving DecidableEq, Repr

/-- Gregorian leap-year rule. -/
def isLeap (y : Nat) : Bool := (y % 4 == 0 && y % 100 != 0) || y % 400 == 0

/-- Number of days in month `m` of year `y`. -/
def daysInMonth (y m : Nat) : Nat :=
  if m = 2 then (if isLeap y then 29 else 28)
  else if m = 4 ∨ m = 6 ∨ m = 9 ∨ m = 11 then 30
  else 31

/-- The day after `d` (time-of-day fields unchanged). -/
def nextDay (d : DateTime) : DateTime :=
  if d.day < daysInMonth d.year d.month then { d with day := d.day + 1 }
  else if d.month < 12 then { d with day := 1, month := d.month + 1 }
  else { d with day := 1, month := 1, year := d.year + 1 }

/-- `d` advanced by `n` whole days. -/
def addDays : DateTime → Nat → DateTime
  | d, 0 => d
  | d, n + 1 => addDays (nextDay d) n

/-- `d + timedelta(hours=h)`: normalised carry of hours into days. -/
def addHours (d : DateTime) (h : Nat) : DateTime :=
  let t := d.hour + h
  addDays { d with hour := t % 24 } (t / 24)

/-- `d + timedelta(minutes=m)`: normalised carry of minutes into hours. -/
def addMinutes (d : DateTime) (m : Nat) : DateTime :=
  let t := d.minute + m
  addHours { d with minute := t % 60 } (t / 60)

/-- `strftime("%Y%m%d%H%M%S")`. -/
def fmtYMDHMS (d : DateTime) : String :=
  pyFmt 4 d.year ++ pyFmt 2 d.month ++ pyFmt 2 d.day ++
  pyFmt 2 d.hour ++ pyFmt 2 d.minute ++ pyFmt 2 d.second

/-- `strftime("%Y%m%d%H%M")`: minute precision, seconds dropped. -/
def fmtYMDHM (d : DateTime) : String :=
  pyFmt 4 d.year ++ pyFmt 2 d.month ++ pyFmt 2 d.day ++
  pyFmt 2 d.hour ++ pyFmt 2 d.minute

/-- The field ranges Python `datetime` guarantees (`MINYEAR = 1`,
`MAXYEAR = 9999`, valid calendar date, valid time of day). -/
def DateTime.Valid (d : DateTime) : Prop :=
  1 ≤ d.year ∧ d.year ≤ 9999 ∧ 1 ≤ d.month ∧ d.month ≤ 12 ∧
  1 ≤ d.day ∧ d.day ≤ daysInMonth d.year d.month ∧
  d.hour ≤ 23 ∧ d.minute ≤ 59 ∧ d.second ≤ 59

instance (d : DateTime) : Decidable d.Valid :=
  inferInstanceAs (Decidable (1 ≤ d.year ∧ d.year ≤ 9999 ∧ 1 ≤ d.month ∧ d.month ≤ 12 ∧
    1 ≤ d.day ∧ d.day ≤ daysInMonth d.year d.month ∧
    d.hour ≤ 23 ∧ d.minute ≤ 59 ∧ d.second ≤ 59))

/-- Python `s.split(sep)` for a one-character separator, over code points:
splits at every occurrence, keeping empty pieces. -/
def pySplitChars (sep : Char) : List Char → List (List Char)
  | [] => [[]]
  | c :: cs =>
    if c = sep then [] :: pySplitChars sep cs
    else
      match pySplitChars sep cs with
      | [] => [[c]]
      | p :: ps => (c :: p) :: ps

/-- Python `s.split(sep)` for a one-character separator, on strings. -/
def pySplit (sep : Char) (s : String) : List String :=
  (pySplitChars sep s.data).map String.mk

/-- `sep.join(pieces)` (inverse of splitting, used to state what a split is). -/
def joinSep (sep : Char) : List (List Char) → List Char
  | [] => []
  | [p] => p
  | p :: q :: ps => p ++ sep :: joinSep sep (q :: ps)

/-- Line 51 of the source:
`patient_name.split(' ') if ' ' in patient_name else (patient_name, "Test")`,
unpacked into the two variables `(last_name, first_name)`. `none` models the
`ValueError` Python raises when the split yields other than two parts. -/
def splitPatientName (s : String) : Option (String × String) :=
  if s.data.contains ' ' then
    match pySplit ' ' s with
    | [a, b] => some (a, b)
    | _ => none
  else some (s, "Test")

/-- `random.randint(lo, hi)`: an arbitrary draw `v` reduced into the
inclusive range `[lo, hi]`. -/
def randint (lo hi v : Nat) : Nat := lo + v % (hi + 1 - lo)

/-- `random.choice(pool)`: an arbitrary draw reduced modulo the pool size. -/
def pyChoice (pool : List String) (v : Nat) : String := pool.getD (v % pool.length) ""

/-- The MSH segment f-string. -/
def msh_segment (timestamp message_id : String) : String :=
  "MSH|^~\\&|RIS|MEMORIAL|RADSCHED|RAD|" ++ timestamp ++ "||SIU^S12|" ++
  message_id ++ "|P|2.5"

/-- The SCH segment f-string (`filler` is the rendered random 4-digit id). -/
def sch_segment (filler apt_timestamp : String) : String :=
  "SCH||" ++ filler ++ "|||||||30|MIN|^^30^" ++ apt_timestamp ++
  "^^R||||||||||||||SCHEDULED"

/-- The PID segment f-string. -/
def pid_segment (mrn last_name first_name : String) : String :=
  "PID|1||" ++ mrn ++ "||" ++ last_name ++ "^" ++ first_name ++
  "||19800101|M|||123 Main St^^Boston^MA^02101||617-555-0123"

/-- The RGS segment literal. -/
def rgs_segment : String := "RGS|1|A"

/-- `study_codes.get(modality, "MRI001^MRI BRAIN W/O CONTRAST")`: dictionary
lookup with the MRI entry as default. -/
def study_code (modality : String) : String :=
  if modality = "MRI" then "MRI001^MRI BRAIN W/O CONTRAST"
  else if modality = "CT" then "CT002^CT CHEST W CONTRAST"
  else if modality = "XRAY" then "XR003^CHEST XRAY 2 VIEWS"
  else if modality = "US" then "US004^ABDOMINAL ULTRASOUND"
  else "MRI001^MRI BRAIN W/O CONTRAST"

/-- The AIS segment f-string. -/
def ais_segment (code apt_timestamp : String) : String :=
  "AIS|1|A|" ++ code ++ "|" ++ apt_timestamp

/-- The AIP segment f-string. -/
def aip_segment (apt_timestamp : String) : String :=
  "AIP|1|A|RADIOLOGIST^DOE^JOHN^MD|" ++ apt_timestamp

/-- Python `sep.join(strings)`. -/
def pyJoin (sep : String) : List String → String
  | [] => ""
  | [s] => s
  | s :: s2 :: rest => s ++ sep ++ pyJoin sep (s2 :: rest)

/-- UTF-8 encoding of one code point (`str.encode('utf-8')`, per character). -/
def utf8EncodeChar (c : Char) : List Nat :=
  let n := c.toNat
  if n < 128 then [n]
  else if n < 2048 then [192 + n / 64, 128 + n % 64]
  else if n < 65536 then [224 + n / 4096, 128 + n / 64 % 64, 128 + n % 64]
  else [240 + n / 262144, 128 + n / 4096 % 64, 128 + n / 64 % 64, 128 + n % 64]

/-- `s.encode('utf-8')` as a byte list. -/
def utf8Encode (s : String) : List Nat := s.data.flatMap utf8EncodeChar

/-- The state of one `HL7Simulator` instance. -/
structure HL7Simulator where
  host : String
  port : Nat
  message_count : Nat
deriving DecidableEq, Repr

/-- `HL7Simulator()` with the default `host='localhost'`, `port=8661`. -/
def HL7Simulator.init : HL7Simulator := ⟨"localhost", 8661, 0⟩

/-- The per-call non-deterministic inputs of `create_hl7_message`: the wall
clock and the raw draws feeding the two `random.randint` calls. -/
structure CallInput where
  patient_name : String
  mrn : Option String
  modality : String
  now : DateTime
  mrnDraw : Nat
  schDraw : Nat

/-- Lines 24-25: `if not mrn: mrn = f"MRN{random.randint(100000, 999999)}"`.
`not mrn` is a falsiness test, so both `None` and `""` trigger generation. -/
def genMrn (mrn : Option String) (draw : Nat) : String :=
  match mrn with
  | none => "MRN" ++ decRepr (randint 100000 999999 draw)
  | some m => if m = "" then "MRN" ++ decRepr (randint 100000 999999 draw) else m

/-- `create_hl7_message(patient_name, mrn, modality)`: returns the updated
simulator state and the MLLP-framed message bytes. `none` models the
`ValueError` escaping from patient-name unpacking; the counter has already
been incremented at that point (line 21 runs first). -/
def create_hl7_message (st : HL7Simulator) (inp : CallInput) :
    HL7Simulator × Option (List Nat) :=
  let st' := { st with message_count := st.message_count + 1 }
  let mrn := genMrn inp.mrn inp.mrnDraw
  let message_id := "MSG" ++ pyFmt 6 st'.message_count
  let timestamp := fmtYMDHMS inp.now
  let apt_timestamp := fmtYMDHM (addHours inp.now 2)
  match splitPatientName inp.patient_name with
  | none => (st', none)
  | some (last_name, first_name) =>
    let segments := [msh_segment timestamp message_id,
                     sch_segment (decRepr (randint 1000 9999 inp.schDraw)) apt_timestamp,
                     pid_segment mrn last_name first_name,
                     rgs_segment,
                     ais_segment (study_code inp.modality) apt_timestamp,
                     aip_segment apt_timestamp]
    let message := pyJoin "\r" segments
    let wrapped := "\x0B" ++ message ++ "\x1C\x0D"
    (st', some (utf8Encode wrapped))

/-- Outcome of the socket connect/send/recv sequence inside `send_message`:
either one of the three steps raised (carrying Python's exception text,
`str(e)`) or a response arrived. -/
inductive NetEvent
  | connectFail (e : String)
  | sendFail (e : String)
  | recvFail (e : String)
  | ok (resp : List Nat)

/-- Is `b` a UTF-8 continuation byte? -/
def contByte (b : Nat) : Bool := 128 ≤ b && b ≤ 191

/-- `bytes.decode('utf-8', errors='ignore')`: well-formed sequences are
decoded, bytes of ill-formed sequences are dropped, and the decoder never
fails (fuel-indexed by the input length). -/
def utf8DecodeIgnore : Nat → List Nat → List Char
  | 0, _ => []
  | _ + 1, [] => []
  | fuel + 1, b :: rest =>
    if b < 128 then Char.ofNat b :: utf8DecodeIgnore fuel rest
    else if 194 ≤ b && b ≤ 223 then
      match rest with
      | b2 :: rest2 =>
        if contByte b2 then
          Char.ofNat ((b - 192) * 64 + (b2 - 128)) :: utf8DecodeIgnore fuel rest2
        else utf8DecodeIgnore fuel rest
      | [] => []
    else if 224 ≤ b && b ≤ 239 then
      match rest with
      | b2 :: b3 :: rest3 =>
        if contByte b2 && contByte b3 &&
            (decide (b ≠ 224) || decide (160 ≤ b2)) &&
            (decide (b ≠ 237) || decide (b2 ≤ 159)) then
          Char.ofNat ((b - 224) * 4096 + (b2 - 128) * 64 + (b3 - 128)) ::
            utf8DecodeIgnore fuel rest3
        else utf8DecodeIgnore fuel rest
      | _ => []
    else if 240 ≤ b && b ≤ 244 then
      match rest with
      | b2 :: b3 :: b4 :: rest4 =>
        if contByte b2 && contByte b3 && contByte b4 &&
            (decide (b ≠ 240) || decide (144 ≤ b2)) &&
            (decide (b ≠ 244) || decide (b2 ≤ 143)) then
          Char.ofNat ((b - 240) * 262144 + (b2 - 128) * 4096 + (b3 - 128) * 64 +
              (b4 - 128)) :: utf8DecodeIgnore fuel rest4
        else utf8DecodeIgnore fuel rest
      | _ => []
    else utf8DecodeIgnore fuel rest

/-- `bytes.decode('utf-8', errors='ignore')` on a byte list: total. -/
def pyDecodeIgnore (bytes : List Nat) : String :=
  String.mk (utf8DecodeIgnore bytes.length bytes)

/-- `send_message(message)`: the whole connect/send/recv sequence sits in one
`try`; `except Exception as e: return False, str(e)` converts every failure,
and on success the response is decoded tolerantly. -/
def send_message (_message : List Nat) (ev : NetEvent) : Bool × String :=
  match ev with
  | .connectFail e => (false, e)
  | .sendFail e => (false, e)
  | .recvFail e => (false, e)
  | .ok resp => (true, pyDecodeIgnore resp)

/-- The fallback patient-name pool of `send_test_appointment`. -/
def names_pool : List String :=
  ["John Doe", "Jane Smith", "Robert Johnson", "Mary Williams", "David Brown"]

/-- The fallback modality pool of `send_test_appointment`. -/
def modality_pool : List String := ["MRI", "CT", "XRAY", "US"]

/-- The draws, clock reads and network outcome available to the `k`-th send
of a run (one slot of each stream per `send_test_appointment` call). -/
structure Env where
  nameDraw : Nat → Nat
  modDraw : Nat → Nat
  mrnDraw : Nat → Nat
  schDraw : Nat → Nat
  clock : Nat → DateTime
  net : Nat → NetEvent

/-- `if not patient_name: patient_name = random.choice(names)`: falsy (absent
or empty) names are replaced by a pool draw. -/
def sta_name (env : Env) (k : Nat) : Option String → String
  | none => pyChoice names_pool (env.nameDraw k)
  | some n => if n = "" then pyChoice names_pool (env.nameDraw k) else n

/-- `if not modality: modality = random.choice([...])`. -/
def sta_modality (env : Env) (k : Nat) : Option String → String
  | none => pyChoice modality_pool (env.modDraw k)
  | some s => if s = "" then pyChoice modality_pool (env.modDraw k) else s

/-- `send_test_appointment(patient_name, modality)`: fills missing (falsy)
arguments from the pools, creates a message with `mrn=None` and sends it,
returning the success flag. `none` models the construction `ValueError`
escaping (the sender's `try` does not cover message construction). -/
def send_test_appointment (env : Env) (k : Nat) (st : HL7Simulator)
    (patient_name modality : Option String) : Option (HL7Simulator × Bool) :=
  match create_hl7_message st ⟨sta_name env k patient_name, none,
      sta_modality env k modality, env.clock k, env.mrnDraw k, env.schDraw k⟩ with
  | (_, none) => none
  | (st', some msg) => some (st', (send_message msg (env.net k)).1)

/-- `n` consecutive `send_test_appointment()` calls: the loop bodies of the
`efficiency-boost` and `load-test` scenarios (sleeps and progress prints
omitted). Returns the final state (`none` if an exception aborted the loop)
and the number of sends performed. -/
def run_sends (env : Env) : HL7Simulator → Nat → Nat → Option HL7Simulator × Nat
  | st, _, 0 => (some st, 0)
  | st, k, n + 1 =>
    match send_test_appointment env k st none none with
    | none => (none, 0)
    | some (st', _) =>
      let r := run_sends env st' (k + 1) n
      (r.1, r.2 + 1)

/-- `run_demo_scenario(scenario)` (sleeps and prints omitted): the final
state and the number of send attempts performed. -/
def run_demo_scenario (env : Env) (st : HL7Simulator) (scenario : String) :
    Option HL7Simulator × Nat :=
  if scenario = "dramatic-save" then
    match send_test_appointment env 0 st (some "John Doe") (some "MRI") with
    | none => (none, 0)
    | some (st', _) => (some st', 1)
  else if scenario = "efficiency-boost" then run_sends env st 0 5
  else if scenario = "load-test" then run_sends env st 0 100
  else
    match send_test_appointment env 0 st none none with
    | none => (none, 0)
    | some (st', _) => (some st', 1)

/-- `runSim st calls`: state after a sequence of `create_hl7_message` calls
(each call's state update happens whether or not the call raises). -/
def runSim (st : HL7Simulator) : List CallInput → HL7Simulator
  | [] => st
  | i :: is => runSim (create_hl7_message st i).1 is

/-- `needle` occurs as a contiguous substring of `hay`. -/
def strContains (hay needle : String) : Prop := needle.data <:+: hay.data

instance (hay needle : String) : Decidable (strContains hay needle) :=
  inferInstanceAs (Decidable (needle.data <:+: hay.data))

/-! ### Decimal rendering lemmas -/

theorem decAux_fuel_irrel :
    ∀ fuel fuel' n : Nat, n < fuel → n < fuel' → decAux fuel n = decAux fuel' n := by
  intro fuel
  induction fuel with
  | zero => exact fun fuel' n h _ => absurd h (Nat.not_lt_zero n)
  | succ f ih =>
    intro fuel' n h h'
    cases fuel' with
    | zero => exact absurd h' (Nat.not_lt_zero n)
    | succ f' =>
      by_cases hn : n = 0
      · simp [decAux, hn]
      · have hd : n / 10 < n := Nat.div_lt_self (Nat.pos_of_ne_zero hn) (by omega)
        simp only [decAux, if_neg hn]
        rw [ih f' (n / 10) (by omega) (by omega)]

theorem decDigits_zero : decDigits 0 = [] := rfl

theorem decDigits_succ (n : Nat) (hn : n ≠ 0) :
    decDigits n = decDigits (n / 10) ++ [digitChar (n % 10)] := by
  have hd : n / 10 < n := Nat.div_lt_self (Nat.pos_of_ne_zero hn) (by omega)
  show decAux (n + 1) n = _
  rw [decAux, if_neg hn, decAux_fuel_irrel n (n / 10 + 1) (n / 10) hd (Nat.lt_succ_self _)]
  rfl

theorem decDigits_length_le : ∀ k n : Nat, n < 10 ^ k → (decDigits n).length ≤ k := by
  intro k
  induction k with
  | zero =>
    intro n h
    rw [pow_zero] at h
    have : n = 0 := by omega
    simp [this, decDigits_zero]
  | succ k ih =>
    intro n h
    by_cases hn : n = 0
    · simp [hn, decDigits_zero]
    · rw [decDigits_succ n hn]
      have hlt : n / 10 < 10 ^ k := by
        rw [Nat.div_lt_iff_lt_mul (by omega : (0:Nat) < 10)]
        calc n < 10 ^ (k + 1) := h
        _ = 10 ^ k * 10 := by ring
      have := ih _ hlt
      simp only [List.length_append, List.length_cons, List.length_nil]
      omega

theorem decDigits_length_lower : ∀ k n : Nat, 10 ^ k ≤ n → k + 1 ≤ (decDigits n).length := by
  intro k
  induction k with
  | zero =>
    intro n h
    rw [pow_zero] at h
    rw [decDigits_succ n (by omega)]
    simp
  | succ k ih =>
    intro n h
    have hone : (1:Nat) ≤ 10 ^ (k + 1) := Nat.one_le_pow _ _ (by omega)
    rw [decDigits_succ n (by omega)]
    have hle : 10 ^ k ≤ n / 10 := by
      rw [Nat.le_div_iff_mul_le (by omega : (0:Nat) < 10)]
      calc 10 ^ k * 10 = 10 ^ (k + 1) := by ring
      _ ≤ n := h
    have := ih _ hle
    simp only [List.length_append, List.length_cons, List.length_nil]
    omega

theorem digitChar_isDigit {d : Nat} (h : d < 10) : (digitChar d).isDigit = true := by
  interval_cases d <;> decide

theorem decDigits_mem_isDigit : ∀ n : Nat, ∀ c ∈ decDigits n, c.isDigit = true := by
  intro n
  induction n using Nat.strong_induction_on with
  | _ n ih =>
    intro c hc
    by_cases hn : n = 0
    · rw [hn, decDigits_zero] at hc
      exact absurd hc (List.not_mem_nil c)
    · rw [decDigits_succ n hn] at hc
      rcases List.mem_append.mp hc with h1 | h1
      · exact ih (n / 10) (Nat.div_lt_self (Nat.pos_of_ne_zero hn) (by omega)) c h1
      · rw [List.mem_singleton.mp h1]
        exact digitChar_isDigit (Nat.mod_lt n (by omega))

theorem decRepr_length_le {k n : Nat} (hk : 1 ≤ k) (h : n < 10 ^ k) :
    (decRepr n).length ≤ k := by
  by_cases hn : n = 0
  · rw [decRepr, if_pos hn]
    show 1 ≤ k
    exact hk
  · rw [decRepr, if_neg hn]
    show (decDigits n).length ≤ k
    exact decDigits_length_le k n h

theorem decRepr_length_six {n : Nat} (h1 : 100000 ≤ n) (h2 : n ≤ 999999) :
    (decRepr n).length = 6 := by
  have e6 : (10:Nat) ^ 6 = 1000000 := by norm_num
  have e5 : (10:Nat) ^ 5 = 100000 := by norm_num
  rw [decRepr, if_neg (by omega : ¬ n = 0)]
  show (decDigits n).length = 6
  have hu := decDigits_length_le 6 n (by omega)
  have hl := decDigits_length_lower 5 n (by omega)
  omega

theorem decRepr_mem_isDigit (n : Nat) : ∀ c ∈ (decRepr n).data, c.isDigit = true := by
  intro c hc
  by_cases hn : n = 0
  · rw [decRepr, if_pos hn] at hc
    have : ("0" : String).data = ['0'] := rfl
    rw [this] at hc
    rw [List.mem_singleton.mp hc]
    decide
  · rw [decRepr, if_neg hn] at hc
    exact decDigits_mem_isDigit n c hc

theorem pyFmt_length {w n : Nat} (h : (decRepr n).length ≤ w) : (pyFmt w n).length = w := by
  rw [pyFmt, zfill, String.length_append]
  have hr : (String.mk (List.replicate (w - (decRepr n).length) '0')).length
      = w - (decRepr n).length := by
    show (List.replicate (w - (decRepr n).length) '0').length = _
    exact List.length_replicate _ _
  rw [hr]
  omega

theorem pyFmt_mem_isDigit (w n : Nat) : ∀ c ∈ (pyFmt w n).data, c.isDigit = true := by
  intro c hc
  rw [pyFmt, zfill, String.data_append] at hc
  rcases List.mem_append.mp hc with h1 | h1
  · have : c ∈ List.replicate (w - (decRepr n).length) '0' := h1
    rw [List.eq_of_mem_replicate this]
    decide
  · exact decRepr_mem_isDigit n c h1

/-! ### Timestamp format lemmas -/

theorem fmtYMDHM_length {d : DateTime} (hy : d.year ≤ 9999) (hm : d.month ≤ 99)
    (hd : d.day ≤ 99) (hh : d.hour ≤ 99) (hmin : d.minute ≤ 99) :
    (fmtYMDHM d).length = 12 := by
  have e4 : (10:Nat) ^ 4 = 10000 := by norm_num
  have e2 : (10:Nat) ^ 2 = 100 := by norm_num
  have l1 : (pyFmt 4 d.year).length = 4 := pyFmt_length (decRepr_length_le (by omega) (by omega))
  have l2 : (pyFmt 2 d.month).length = 2 := pyFmt_length (decRepr_length_le (by omega) (by omega))
  have l3 : (pyFmt 2 d.day).length = 2 := pyFmt_length (decRepr_length_le (by omega) (by omega))
  have l4 : (pyFmt 2 d.hour).length = 2 := pyFmt_length (decRepr_length_le (by omega) (by omega))
  have l5 : (pyFmt 2 d.minute).length = 2 := pyFmt_length (decRepr_length_le (by omega) (by omega))
  rw [fmtYMDHM, String.length_append, String.length_append, String.length_append,
      String.length_append, l1, l2, l3, l4, l5]

theorem fmtYMDHM_mem_isDigit (d : DateTime) : ∀ c ∈ (fmtYMDHM d).data, c.isDigit = true := by
  intro c hc
  rw [fmtYMDHM] at hc
  simp only [String.data_append, List.mem_append] at hc
  rcases hc with (((h | h) | h) | h) | h <;> exact pyFmt_mem_isDigit _ _ c h

/-! ### Python split lemmas -/

theorem pySplitChars_ne_nil (sep : Char) : ∀ l : List Char, pySplitChars sep l ≠ [] := by
  intro l
  induction l with
  | nil => simp [pySplitChars]
  | cons c cs ih =>
    rw [pySplitChars]
    by_cases h : c = sep
    · simp [h]
    · rw [if_neg h]
      rcases hr : pySplitChars sep cs with _ | ⟨p, ps⟩
      · simp
      · simp

theorem pySplitChars_length (sep : Char) :
    ∀ l : List Char, (pySplitChars sep l).length = l.count sep + 1 := by
  intro l
  induction l with
  | nil => simp [pySplitChars]
  | cons c cs ih =>
    rw [pySplitChars]
    by_cases h : c = sep
    · subst h
      simp [ih]
    · rw [if_neg h]
      rcases hr : pySplitChars sep cs with _ | ⟨p, ps⟩
      · exact absurd hr (pySplitChars_ne_nil sep cs)
      · rw [hr] at ih
        simp only [List.length_cons] at ih ⊢
        rw [List.count_cons_of_ne (fun he => h he.symm)]
        omega

theorem pySplitChars_pieces_no_sep (sep : Char) :
    ∀ l : List Char, ∀ p ∈ pySplitChars sep l, ¬ sep ∈ p := by
  intro l
  induction l with
  | nil =>
    intro p hp
    simp [pySplitChars] at hp
    simp [hp]
  | cons c cs ih =>
    intro p hp
    rw [pySplitChars] at hp
    by_cases h : c = sep
    · rw [if_pos h] at hp
      rcases List.mem_cons.mp hp with h1 | h1
      · simp [h1]
      · exact ih p h1
    · rw [if_neg h] at hp
      rcases hr : pySplitChars sep cs with _ | ⟨q, qs⟩
      · exact absurd hr (pySplitChars_ne_nil sep cs)
      · rw [hr] at hp
        rcases List.mem_cons.mp hp with h1 | h1
        · subst h1
          intro hmem
          rcases List.mem_cons.mp hmem with h2 | h2
          · exact h h2.symm
          · exact ih q (by rw [hr]; exact List.mem_cons_self q qs) h2
        · exact ih p (by rw [hr]; exact List.mem_cons_of_mem q h1)

theorem joinSep_cons (sep c : Char) (p : List Char) (ps : List (List Char)) :
    joinSep sep ((c :: p) :: ps) = c :: joinSep sep (p :: ps) := by
  cases ps <;> rfl

theorem joinSep_pySplitChars (sep : Char) :
    ∀ l : List Char, joinSep sep (pySplitChars sep l) = l := by
  intro l
  induction l with
  | nil => rfl
  | cons c cs ih =>
    rw [pySplitChars]
    by_cases h : c = sep
    · rw [if_pos h]
      rcases hr : pySplitChars sep cs with _ | ⟨q, qs⟩
      · exact absurd hr (pySplitChars_ne_nil sep cs)
      · rw [hr] at ih
        subst h
        show joinSep c ([] :: q :: qs) = c :: cs
        rw [joinSep]
        simp [ih]
    · rw [if_neg h]
      rcases hr : pySplitChars sep cs with _ | ⟨q, qs⟩
      · exact absurd hr (pySplitChars_ne_nil sep cs)
      · rw [hr] at ih
        rw [joinSep_cons, ih]

theorem pySplitChars_pair {sep : Char} {l a b : List Char}
    (h : pySplitChars sep l = [a, b]) : l = a ++ sep :: b := by
  have hj := joinSep_pySplitChars sep l
  rw [h] at hj
  rw [← hj]
  rfl

/-! ### `splitPatientName` case analysis -/

theorem splitPatientName_no_space {s : String} (h : s.data.count ' ' = 0) :
    splitPatientName s = some (s, "Test") := by
  have hmem : ¬ ' ' ∈ s.data := List.count_eq_zero.mp h
  rw [splitPatientName, if_neg (by simp; exact hmem)]

theorem splitPatientName_one_space {s : String} (h : s.data.count ' ' = 1) :
    ∃ last first : String, splitPatientName s = some (last, first) ∧
      s = last ++ " " ++ first ∧
      last.data.contains ' ' = false ∧ first.data.contains ' ' = false := by
  have hmem : ' ' ∈ s.data := List.count_pos_iff.mp (by omega)
  have hlen : (pySplitChars ' ' s.data).length = 2 := by
    rw [pySplitChars_length]
    omega
  rcases List.length_eq_two.mp hlen with ⟨a, b, hab⟩
  refine ⟨String.mk a, String.mk b, ?_, ?_, ?_, ?_⟩
  · rw [splitPatientName, if_pos (by simp; exact hmem), pySplit, hab]
    rfl
  · apply String.ext
    show s.data = (String.mk a ++ " " ++ String.mk b).data
    rw [String.data_append, String.data_append]
    show s.data = (a ++ [' ']) ++ b
    rw [pySplitChars_pair hab]
    simp
  · have hna : ¬ ' ' ∈ a :=
      pySplitChars_pieces_no_sep ' ' s.data a (by rw [hab]; simp)
    simp [List.contains]
    exact hna
  · have hnb : ¬ ' ' ∈ b :=
      pySplitChars_pieces_no_sep ' ' s.data b (by rw [hab]; simp)
    simp [List.contains]
    exact hnb

theorem splitPatientName_many_spaces {s : String} (h : 2 ≤ s.data.count ' ') :
    splitPatientName s = none := by
  have hmem : ' ' ∈ s.data := List.count_pos_iff.mp (by omega)
  rw [splitPatientName, if_pos (by simp; exact hmem)]
  have hlen : (pySplitChars ' ' s.data).length = s.data.count ' ' + 1 :=
    pySplitChars_length ' ' s.data
  rcases hps : pySplitChars ' ' s.data with _ | ⟨a, rest⟩
  · exact absurd hps (pySplitChars_ne_nil ' ' s.data)
  · rcases rest with _ | ⟨b, rest2⟩
    · rw [hps] at hlen
      simp at hlen
      omega
    · rcases rest2 with _ | ⟨c, rest3⟩
      · rw [hps] at hlen
        simp at hlen
        omega
      · rw [pySplit, hps]
        rfl

/-! ### Datetime arithmetic lemmas -/

theorem addMinutes_120 {d : DateTime} (h : d.minute ≤ 59) :
    addMinutes d 120 = addHours d 2 := by
  rw [addMinutes]
  have h1 : (d.minute + 120) % 60 = d.minute := by omega
  have h2 : (d.minute + 120) / 60 = 2 := by omega
  rw [h1, h2]

theorem daysInMonth_le_31 (y m : Nat) : daysInMonth y m ≤ 31 := by
  rw [daysInMonth]
  split_ifs <;> omega

theorem nextDay_bounds (x : DateTime) (hm2 : x.month ≤ 12) :
    (nextDay x).month ≤ 12 ∧ (nextDay x).day ≤ 31 ∧
    (nextDay x).hour = x.hour ∧ (nextDay x).minute = x.minute ∧
    (nextDay x).second = x.second := by
  rw [nextDay]
  split_ifs with h1 h2
  · refine ⟨hm2, ?_, rfl, rfl, rfl⟩
    show x.day + 1 ≤ 31
    have := daysInMonth_le_31 x.year x.month
    omega
  · refine ⟨?_, ?_, rfl, rfl, rfl⟩
    · show x.month + 1 ≤ 12
      omega
    · show (1:Nat) ≤ 31
      omega
  · refine ⟨?_, ?_, rfl, rfl, rfl⟩
    · show (1:Nat) ≤ 12
      omega
    · show (1:Nat) ≤ 31
      omega

theorem addHours_two_bounds {d : DateTime} (hv : d.Valid) :
    (addHours d 2).month ≤ 12 ∧ (addHours d 2).day ≤ 31 ∧
    (addHours d 2).hour ≤ 23 ∧ (addHours d 2).minute ≤ 59 := by
  obtain ⟨hy1, hy2, hm1, hm2, hd1, hd2, hh, hmin, hsec⟩ := hv
  have hdim := daysInMonth_le_31 d.year d.month
  rw [addHours]
  by_cases hlt : d.hour + 2 < 24
  · have h0 : (d.hour + 2) / 24 = 0 := by omega
    rw [h0]
    refine ⟨hm2, ?_, ?_, ?_⟩
    · show d.day ≤ 31
      omega
    · show (d.hour + 2) % 24 ≤ 23
      omega
    · show d.minute ≤ 59
      exact hmin
  · have h1 : (d.hour + 2) / 24 = 1 := by omega
    rw [h1]
    have hb := nextDay_bounds { d with hour := (d.hour + 2) % 24 } hm2
    refine ⟨hb.1, hb.2.1, ?_, ?_⟩
    · show (nextDay { d with hour := (d.hour + 2) % 24 }).hour ≤ 23
      rw [hb.2.2.1]
      show (d.hour + 2) % 24 ≤ 23
      omega
    · show (nextDay { d with hour := (d.hour + 2) % 24 }).minute ≤ 59
      rw [hb.2.2.2.1]
      exact hmin

/-! ### Canonical forms of `create_hl7_message` -/

theorem create_eq_none {st : HL7Simulator} {pn : String} {mrn : Option String}
    {modality : String} {now : DateTime} {md sd : Nat}
    (h : splitPatientName pn = none) :
    create_hl7_message st ⟨pn, mrn, modality, now, md, sd⟩ =
      ({ st with message_count := st.message_count + 1 }, none) := by
  rw [create_hl7_message, h]

theorem create_eq_some {st : HL7Simulator} {pn : String} {mrn : Option String}
    {modality : String} {now : DateTime} {md sd : Nat} {ln fn : String}
    (h : splitPatientName pn = some (ln, fn)) :
    create_hl7_message st ⟨pn, mrn, modality, now, md, sd⟩ =
      ({ st with message_count := st.message_count + 1 },
        some (utf8Encode ("\x0B" ++ pyJoin "\r"
          [msh_segment (fmtYMDHMS now) ("MSG" ++ pyFmt 6 (st.message_count + 1)),
           sch_segment (decRepr (randint 1000 9999 sd)) (fmtYMDHM (addHours now 2)),
           pid_segment (genMrn mrn md) ln fn,
           rgs_segment,
           ais_segment (study_code modality) (fmtYMDHM (addHours now 2)),
           aip_segment (fmtYMDHM (addHours now 2))] ++ "\x1C\x0D"))) := by
  rw [create_hl7_message, h]

theorem create_snd_isSome (st : HL7Simulator) (inp : CallInput) :
    (create_hl7_message st inp).2.isSome = (splitPatientName inp.patient_name).isSome := by
  obtain ⟨pn, mrn, modality, now, md, sd⟩ := inp
  rcases h : splitPatientName pn with _ | ⟨ln, fn⟩
  · rw [create_eq_none h]
    rfl
  · rw [create_eq_some h]
    rfl

/-! ### Byte-level helpers -/

theorem utf8Encode_append (a b : String) :
    utf8Encode (a ++ b) = utf8Encode a ++ utf8Encode b := by
  rw [utf8Encode, utf8Encode, utf8Encode, String.data_append, List.flatMap_append]

/-! ### Substring facts about the segments -/

theorem sch_contains_apt (fill t : String) : strContains (sch_segment fill t) t := by
  refine ⟨("SCH||" ++ fill ++ "|||||||30|MIN|^^30^").data,
          ("^^R||||||||||||||SCHEDULED" : String).data, ?_⟩
  rw [sch_segment]
  simp [String.data_append, List.append_assoc]

theorem ais_contains_apt (code t : String) : strContains (ais_segment code t) t := by
  refine ⟨("AIS|1|A|" ++ code ++ "|").data, ([] : List Char), ?_⟩
  rw [ais_segment]
  simp [String.data_append, List.append_assoc]

theorem aip_contains_apt (t : String) : strContains (aip_segment t) t := by
  refine ⟨("AIP|1|A|RADIOLOGIST^DOE^JOHN^MD|" : String).data, ([] : List Char), ?_⟩
  rw [aip_segment]
  simp [String.data_append, List.append_assoc]

theorem pid_contains_name (mrn ln fn : String) :
    strContains (pid_segment mrn ln fn) (ln ++ "^" ++ fn) := by
  refine ⟨("PID|1||" ++ mrn ++ "||").data,
          ("||19800101|M|||123 Main St^^Boston^MA^02101||617-555-0123" : String).data, ?_⟩
  rw [pid_segment]
  simp [String.data_append, List.append_assoc]

theorem ais_contains_code (code t : String) : strContains (ais_segment code t) code := by
  refine ⟨("AIS|1|A|" : String).data, ("|" ++ t).data, ?_⟩
  rw [ais_segment]
  simp [String.data_append, List.append_assoc]

/-! ### Scenario-runner helpers -/

theorem names_pool_split_isSome (v : Nat) :
    (splitPatientName (pyChoice names_pool v)).isSome = true := by
  have hlen : names_pool.length = 5 := rfl
  have : v % 5 = 0 ∨ v % 5 = 1 ∨ v % 5 = 2 ∨ v % 5 = 3 ∨ v % 5 = 4 := by omega
  rcases this with h | h | h | h | h <;> rw [pyChoice, hlen, h] <;> decide

theorem sta_isSome_of_split (env : Env) (k : Nat) (st : HL7Simulator)
    (pn m : Option String)
    (h : (splitPatientName (sta_name env k pn)).isSome = true) :
    ∃ st' b, send_test_appointment env k st pn m = some (st', b) := by
  rw [send_test_appointment]
  rcases hsp : splitPatientName (sta_name env k pn) with _ | ⟨ln, fn⟩
  · rw [hsp] at h
    simp at h
  · rw [create_eq_some hsp]
    exact ⟨_, _, rfl⟩

theorem run_sends_count (env : Env) :
    ∀ n k st, ∃ st', run_sends env st k n = (some st', n) := by
  intro n
  induction n with
  | zero => exact fun k st => ⟨st, rfl⟩
  | succ n ih =>
    intro k st
    obtain ⟨st', b, hst⟩ := sta_isSome_of_split env k st none none
      (names_pool_split_isSome (env.nameDraw k))
    rw [run_sends, hst]
    obtain ⟨st'', hrec⟩ := ih (k + 1) st'
    refine ⟨st'', ?_⟩
    show ((run_sends env st' (k + 1) n).1, (run_sends env st' (k + 1) n).2 + 1)
      = (some st'', n + 1)
    rw [hrec]

/-! ### Frame and payload-shape helpers -/

theorem create_fst (st : HL7Simulator) (inp : CallInput) :
    (create_hl7_message st inp).1 = { st with message_count := st.message_count + 1 } := by
  obtain ⟨pn, mrn, modality, now, md, sd⟩ := inp
  rcases h : splitPatientName pn with _ | ⟨ln, fn⟩
  · rw [create_eq_none h]
  · rw [create_eq_some h]

theorem runSim_count (st : HL7Simulator) :
    ∀ calls : List CallInput,
      (runSim st calls).message_count = st.message_count + calls.length := by
  intro calls
  induction calls generalizing st with
  | nil => simp [runSim]
  | cons i is ih =>
    rw [runSim, ih, create_fst]
    show st.message_count + 1 + is.length = st.message_count + (i :: is).length
    simp [List.length_cons]
    omega

theorem wrapped_head (m a : String) (ms : List String) :
    ∃ rest, utf8Encode ("\x0B" ++ pyJoin "\r" (m :: a :: ms) ++ "\x1C\x0D")
      = 11 :: utf8Encode m ++ rest := by
  have h11 : utf8Encode "\x0B" = [11] := rfl
  refine ⟨utf8Encode "\r" ++ utf8Encode (pyJoin "\r" (a :: ms)) ++
    utf8Encode "\x1C\x0D", ?_⟩
  rw [show pyJoin "\r" (m :: a :: ms) = m ++ "\r" ++ pyJoin "\r" (a :: ms) from rfl]
  simp [utf8Encode_append, h11, List.append_assoc]

theorem utf8_pyJoin_extract (a b c d e f : String) :
    (∃ l r, utf8Encode ("\x0B" ++ pyJoin "\r" [a, b, c, d, e, f] ++ "\x1C\x0D")
        = l ++ utf8Encode c ++ r) ∧
    (∃ l r, utf8Encode ("\x0B" ++ pyJoin "\r" [a, b, c, d, e, f] ++ "\x1C\x0D")
        = l ++ utf8Encode e ++ r) := by
  have hJ : pyJoin "\r" [a, b, c, d, e, f]
      = a ++ "\r" ++ (b ++ "\r" ++ (c ++ "\r" ++ (d ++ "\r" ++ (e ++ "\r" ++ f)))) := rfl
  constructor
  · refine ⟨utf8Encode "\x0B" ++ utf8Encode a ++ utf8Encode "\r" ++ utf8Encode b ++
      utf8Encode "\r",
      utf8Encode "\r" ++ utf8Encode (d ++ "\r" ++ (e ++ "\r" ++ f)) ++
        utf8Encode "\x1C\x0D", ?_⟩
    rw [hJ]
    simp [utf8Encode_append, List.append_assoc]
  · refine ⟨utf8Encode "\x0B" ++ utf8Encode a ++ utf8Encode "\r" ++ utf8Encode b ++
      utf8Encode "\r" ++ utf8Encode c ++ utf8Encode "\r" ++ utf8Encode d ++
      utf8Encode "\r",
      utf8Encode "\r" ++ utf8Encode f ++ utf8Encode "\x1C\x0D", ?_⟩
    rw [hJ]
    simp [utf8Encode_append, List.append_assoc]

/-! ## The claims -/

/-- C9: a `create_hl7_message` call mutates only the builder's
`message_count` field, incrementing it by exactly one; `host` and `port`
are unchanged by every call. -/
theorem c9_frame_effect (st : HL7Simulator) (inp : CallInput) :
    (create_hl7_message st inp).1 = { st with message_count := st.message_count + 1 } ∧
    (create_hl7_message st inp).1.host = st.host ∧
    (create_hl7_message st inp).1.port = st.port ∧
    (create_hl7_message st inp).1.message_count = st.message_count + 1 := by
  rw [create_fst]
  exact ⟨rfl, rfl, rfl, rfl⟩

/-- C6: the AIS study code is the table entry for the modality under exact,
case-sensitive key match on {MRI, CT, XRAY, US}; any other modality string
(lowercase variants included) yields the MRI entry, and every produced
message embeds the bytes of `ais_segment (study_code modality) _`. -/
theorem c6_modality_mapping (m : String) :
    (m = "MRI" → study_code m = "MRI001^MRI BRAIN W/O CONTRAST") ∧
    (m = "CT" → study_code m = "CT002^CT CHEST W CONTRAST") ∧
    (m = "XRAY" → study_code m = "XR003^CHEST XRAY 2 VIEWS") ∧
    (m = "US" → study_code m = "US004^ABDOMINAL ULTRASOUND") ∧
    (m ≠ "MRI" → m ≠ "CT" → m ≠ "XRAY" → m ≠ "US" →
      study_code m = "MRI001^MRI BRAIN W/O CONTRAST") ∧
    ∀ st inp bs, inp.modality = m → (create_hl7_message st inp).2 = some bs →
      ∃ l r, bs = l ++ utf8Encode (ais_segment (study_code m)
        (fmtYMDHM (addHours inp.now 2))) ++ r := by
  refine ⟨?_, ?_, ?_, ?_, ?_, ?_⟩
  · intro h
    subst h
    rfl
  · intro h
    subst h
    rfl
  · intro h
    subst h
    rfl
  · intro h
    subst h
    rfl
  · intro h1 h2 h3 h4
    rw [study_code, if_neg h1, if_neg h2, if_neg h3, if_neg h4]
  · intro st inp bs hm hbs
    obtain ⟨pn, mrn, modality, now, md, sd⟩ := inp
    have hm' : modality = m := hm
    subst hm'
    rcases hsp : splitPatientName pn with _ | ⟨ln, fn⟩
    · rw [create_eq_none hsp] at hbs
      simp at hbs
    · rw [create_eq_some hsp] at hbs
      simp at hbs
      rw [← hbs]
      exact (utf8_pyJoin_extract _ _ _ _ _ _).2

/-- C7: every connect, write, or read failure inside `send_message` yields
`(false, exception text)` — never an escaping exception — and a successful
exchange yields `(true, response)` where decoding is total (tolerates any
invalid bytes). -/
theorem c7_send_message (msg : List Nat) (ev : NetEvent) :
    (∀ e, ev = NetEvent.connectFail e ∨ ev = NetEvent.sendFail e ∨
        ev = NetEvent.recvFail e → send_message msg ev = (false, e)) ∧
    (∀ resp, ev = NetEvent.ok resp →
      send_message msg ev = (true, pyDecodeIgnore resp)) ∧
    ∀ bytes : List Nat, ∃ s : String,
      send_message msg (NetEvent.ok bytes) = (true, s) := by
  refine ⟨?_, ?_, ?_⟩
  · intro e h
    rcases h with h | h | h <;> subst h <;> rfl
  · intro resp h
    subst h
    rfl
  · intro bytes
    exact ⟨pyDecodeIgnore bytes, rfl⟩

/-- C7 witness: a refused connection yields `(false, text)` and a received
response is decoded, at concrete inputs. -/
theorem c7_send_message_witness :
    send_message [11] (NetEvent.connectFail "[Errno 111] Connection refused")
      = (false, "[Errno 111] Connection refused") ∧
    send_message [11] (NetEvent.ok [65, 255, 66]) = (true, pyDecodeIgnore [65, 255, 66]) :=
  ⟨(c7_send_message [11] (NetEvent.connectFail "[Errno 111] Connection refused")).1
      "[Errno 111] Connection refused" (Or.inl rfl),
   (c7_send_message [11] (NetEvent.ok [65, 255, 66])).2.1 [65, 255, 66] rfl⟩

/-- C10: an empty supplied MRN is falsy, so it triggers generation of
`MRN` + a 6-digit number in [100000, 999999] exactly as `mrn=None` does;
the generated 9-character MRN (never the empty string) is what the call
embeds, and the whole result equals the `mrn=None` result. -/
theorem c10_empty_mrn (st : HL7Simulator) (inp : CallInput) (h : inp.mrn = some "") :
    genMrn inp.mrn inp.mrnDraw =
      "MRN" ++ decRepr (randint 100000 999999 inp.mrnDraw) ∧
    genMrn inp.mrn inp.mrnDraw = genMrn none inp.mrnDraw ∧
    100000 ≤ randint 100000 999999 inp.mrnDraw ∧
    randint 100000 999999 inp.mrnDraw ≤ 999999 ∧
    (decRepr (randint 100000 999999 inp.mrnDraw)).length = 6 ∧
    (genMrn inp.mrn inp.mrnDraw).length = 9 ∧
    create_hl7_message st inp = create_hl7_message st { inp with mrn := none } := by
  have hr1 : 100000 ≤ randint 100000 999999 inp.mrnDraw := by
    rw [randint]
    omega
  have hr2 : randint 100000 999999 inp.mrnDraw ≤ 999999 := by
    rw [randint]
    have := Nat.mod_lt inp.mrnDraw (by omega : 0 < 999999 + 1 - 100000)
    omega
  have hg : genMrn inp.mrn inp.mrnDraw
      = "MRN" ++ decRepr (randint 100000 999999 inp.mrnDraw) := by
    rw [h, genMrn, if_pos rfl]
  have hlen : (decRepr (randint 100000 999999 inp.mrnDraw)).length = 6 :=
    decRepr_length_six hr1 hr2
  refine ⟨hg, ?_, hr1, hr2, hlen, ?_, ?_⟩
  · rw [hg]
    rfl
  · rw [hg, String.length_append]
    have h3 : ("MRN" : String).length = 3 := rfl
    rw [h3, hlen]
  · obtain ⟨pn, mrn, modality, now, md, sd⟩ := inp
    have h' : mrn = some "" := h
    subst h'
    rcases hsp : splitPatientName pn with _ | ⟨ln, fn⟩
    · rw [create_eq_none hsp, create_eq_none hsp]
    · rw [create_eq_some hsp, create_eq_some hsp]
      rfl

/-- Concrete inputs for the C6 witness. -/
def c6w_inp : CallInput := ⟨"Robert Johnson", none, "ct", ⟨2026, 10, 12, 9, 30, 0⟩, 1, 2⟩

/-- The bytes the C6 witness call produces. -/
def c6w_bytes : List Nat := ((create_hl7_message HL7Simulator.init c6w_inp).2).getD []

/-- C6 witness: the lowercase modality "ct" falls back to the MRI entry, and
a concrete call's bytes embed that AIS segment. -/
theorem c6_modality_mapping_witness :
    study_code "ct" = "MRI001^MRI BRAIN W/O CONTRAST" ∧
    ∃ l r, c6w_bytes = l ++ utf8Encode (ais_segment (study_code "ct")
      (fmtYMDHM (addHours c6w_inp.now 2))) ++ r :=
  ⟨(c6_modality_mapping "ct").2.2.2.2.1 (by decide) (by decide) (by decide) (by decide),
   (c6_modality_mapping "ct").2.2.2.2.2 HL7Simulator.init c6w_inp c6w_bytes rfl rfl⟩

/-- C4: from a fresh simulator the counter equals the number of calls made,
every call increments it by exactly one, and the `(n+1)`-st call's message
opens with the MSH segment carrying control ID `MSG` + the call number
zero-padded to six digits. -/
theorem c4_message_id (host : String) (port : Nat) (calls : List CallInput)
    (inp : CallInput) :
    (runSim ⟨host, port, 0⟩ calls).message_count = calls.length ∧
    (∀ st : HL7Simulator,
      (create_hl7_message st inp).1.message_count = st.message_count + 1) ∧
    ∀ bs, (create_hl7_message (runSim ⟨host, port, 0⟩ calls) inp).2 = some bs →
      ∃ rest, bs = 11 :: utf8Encode (msh_segment (fmtYMDHMS inp.now)
        ("MSG" ++ pyFmt 6 (calls.length + 1))) ++ rest := by
  have hcount : (runSim ⟨host, port, 0⟩ calls).message_count = calls.length := by
    rw [runSim_count]
    show 0 + calls.length = calls.length
    omega
  refine ⟨hcount, ?_, ?_⟩
  · intro st
    rw [create_fst]
  · intro bs hbs
    obtain ⟨pn, mrn, modality, now, md, sd⟩ := inp
    rcases hsp : splitPatientName pn with _ | ⟨ln, fn⟩
    · rw [create_eq_none hsp] at hbs
      simp at hbs
    · rw [create_eq_some hsp] at hbs
      simp at hbs
      rw [hcount] at hbs
      rw [← hbs]
      exact wrapped_head _ _ _

/-- Concrete input for the C4 witness. -/
def c4w_inp : CallInput := ⟨"Jane Smith", none, "MRI", ⟨2026, 10, 12, 9, 30, 0⟩, 5, 6⟩

/-- The bytes the C4 witness call produces. -/
def c4w_bytes : List Nat :=
  ((create_hl7_message (runSim ⟨"localhost", 8661, 0⟩ []) c4w_inp).2).getD []

/-- C4 witness: the first call of a fresh simulator carries `MSG000001`
right after the MLLP start byte. -/
theorem c4_message_id_witness :
    ∃ rest, c4w_bytes = 11 :: utf8Encode (msh_segment (fmtYMDHMS c4w_inp.now)
      ("MSG" ++ pyFmt 6 (List.length ([] : List CallInput) + 1))) ++ rest :=
  (c4_message_id "localhost" 8661 [] c4w_inp).2.2 c4w_bytes rfl

/-- C5: every byte sequence `create_hl7_message` returns starts with the
single MLLP start byte 0x0B and ends with 0x1C 0x0D, with the UTF-8 bytes
of the six-segment payload in between. -/
theorem c5_mllp_framing (st : HL7Simulator) (inp : CallInput) (bs : List Nat)
    (h : (create_hl7_message st inp).2 = some bs) :
    ∃ last first, splitPatientName inp.patient_name = some (last, first) ∧
      bs = 11 :: utf8Encode (pyJoin "\r"
        [msh_segment (fmtYMDHMS inp.now) ("MSG" ++ pyFmt 6 (st.message_count + 1)),
         sch_segment (decRepr (randint 1000 9999 inp.schDraw))
           (fmtYMDHM (addHours inp.now 2)),
         pid_segment (genMrn inp.mrn inp.mrnDraw) last first,
         rgs_segment,
         ais_segment (study_code inp.modality) (fmtYMDHM (addHours inp.now 2)),
         aip_segment (fmtYMDHM (addHours inp.now 2))]) ++ [28, 13] := by
  obtain ⟨pn, mrn, modality, now, md, sd⟩ := inp
  rcases hsp : splitPatientName pn with _ | ⟨ln, fn⟩
  · rw [create_eq_none hsp] at h
    simp at h
  · rw [create_eq_some hsp] at h
    simp at h
    refine ⟨ln, fn, rfl, ?_⟩
    rw [← h, utf8Encode_append, utf8Encode_append]
    rfl

/-- Concrete input for the C5 witness. -/
def c5w_inp : CallInput := ⟨"David Brown", none, "XRAY", ⟨2027, 1, 31, 23, 0, 5⟩, 11, 22⟩

/-- The bytes the C5 witness call produces. -/
def c5w_bytes : List Nat := ((create_hl7_message HL7Simulator.init c5w_inp).2).getD []

/-- C5 witness: MLLP framing at a concrete input. -/
theorem c5_mllp_framing_witness :
    ∃ last first, splitPatientName c5w_inp.patient_name = some (last, first) ∧
      c5w_bytes = 11 :: utf8Encode (pyJoin "\r"
        [msh_segment (fmtYMDHMS c5w_inp.now)
           ("MSG" ++ pyFmt 6 (HL7Simulator.init.message_count + 1)),
         sch_segment (decRepr (randint 1000 9999 c5w_inp.schDraw))
           (fmtYMDHM (addHours c5w_inp.now 2)),
         pid_segment (genMrn c5w_inp.mrn c5w_inp.mrnDraw) last first,
         rgs_segment,
         ais_segment (study_code c5w_inp.modality) (fmtYMDHM (addHours c5w_inp.now 2)),
         aip_segment (fmtYMDHM (addHours c5w_inp.now 2))]) ++ [28, 13] :=
  c5_mllp_framing HL7Simulator.init c5w_inp c5w_bytes rfl

/-- C8: the `load-test` scenario performs exactly 100 send attempts,
`efficiency-boost` exactly 5, and every scenario string other than the
three named ones performs exactly one send. -/
theorem c8_scenario_counts (env : Env) (st : HL7Simulator) :
    (run_demo_scenario env st "load-test").2 = 100 ∧
    (run_demo_scenario env st "efficiency-boost").2 = 5 ∧
    ∀ s : String, s ≠ "dramatic-save" → s ≠ "efficiency-boost" → s ≠ "load-test" →
      (run_demo_scenario env st s).2 = 1 := by
  refine ⟨?_, ?_, ?_⟩
  · rw [run_demo_scenario, if_neg (by decide), if_neg (by decide), if_pos rfl]
    obtain ⟨st', h⟩ := run_sends_count env 100 0 st
    rw [h]
  · rw [run_demo_scenario, if_neg (by decide), if_pos rfl]
    obtain ⟨st', h⟩ := run_sends_count env 5 0 st
    rw [h]
  · intro s h1 h2 h3
    rw [run_demo_scenario, if_neg h1, if_neg h2, if_neg h3]
    obtain ⟨st', b, hst⟩ := sta_isSome_of_split env 0 st none none
      (names_pool_split_isSome (env.nameDraw 0))
    rw [hst]

/-- A concrete environment for witnesses of the scenario runner. -/
def env0 : Env := ⟨fun _ => 0, fun _ => 0, fun _ => 0, fun _ => 0,
  fun _ => ⟨2026, 10, 12, 9, 30, 0⟩, fun _ => NetEvent.ok []⟩

/-- C8 witness: an unrecognised scenario string performs exactly one send. -/
theorem c8_scenario_counts_witness :
    (run_demo_scenario env0 HL7Simulator.init "demo").2 = 1 :=
  (c8_scenario_counts env0 HL7Simulator.init).2.2 "demo"
    (by decide) (by decide) (by decide)

/-- Concrete input for C1: `("Jane Smith", None, "CT")` plus fixed clock and
draws. -/
def c1_inp : CallInput := ⟨"Jane Smith", none, "CT", ⟨2026, 10, 12, 9, 30, 0⟩, 23456, 1234⟩

/-- The payload string the C1 call wraps. -/
def c1_payload : String :=
  "\x0B" ++ pyJoin "\r"
    [msh_segment (fmtYMDHMS c1_inp.now) ("MSG" ++ pyFmt 6 1),
     sch_segment (decRepr (randint 1000 9999 c1_inp.schDraw))
       (fmtYMDHM (addHours c1_inp.now 2)),
     pid_segment (genMrn c1_inp.mrn c1_inp.mrnDraw) "Jane" "Smith",
     rgs_segment,
     ais_segment (study_code c1_inp.modality) (fmtYMDHM (addHours c1_inp.now 2)),
     aip_segment (fmtYMDHM (addHours c1_inp.now 2))] ++ "\x1C\x0D"

set_option maxRecDepth 8000 in
/-- C1 counterexample: with `("Jane Smith", None, "CT")` the produced message
nowhere contains `Smith^Jane`: the code assigns the first word of the name
to `last_name`, so the PID name field reads `Jane^Smith`. -/
theorem c1_counterexample :
    (create_hl7_message HL7Simulator.init c1_inp).2 = some (utf8Encode c1_payload) ∧
    ¬ strContains c1_payload "Smith^Jane" ∧
    strContains c1_payload "Jane^Smith" :=
  ⟨rfl, by decide, by decide⟩

/-- C1 (amended): calling with `("Jane Smith", None, "CT")` produces a
message whose PID segment contains the name field `Jane^Smith` and whose
AIS segment contains the study code `CT002^CT CHEST W CONTRAST`. -/
theorem c1_amended (st : HL7Simulator) (now : DateTime) (md sd : Nat) :
    ∃ bs, (create_hl7_message st ⟨"Jane Smith", none, "CT", now, md, sd⟩).2 = some bs ∧
      (∃ l r, bs = l ++ utf8Encode (pid_segment (genMrn none md) "Jane" "Smith") ++ r) ∧
      strContains (pid_segment (genMrn none md) "Jane" "Smith") "Jane^Smith" ∧
      (∃ l r, bs = l ++ utf8Encode (ais_segment (study_code "CT")
        (fmtYMDHM (addHours now 2))) ++ r) ∧
      strContains (ais_segment (study_code "CT") (fmtYMDHM (addHours now 2)))
        "CT002^CT CHEST W CONTRAST" := by
  have hsp : splitPatientName "Jane Smith" = some ("Jane", "Smith") := by decide
  refine ⟨_, by rw [create_eq_some hsp], ?_, ?_, ?_, ?_⟩
  · exact (utf8_pyJoin_extract _ _ _ _ _ _).1
  · have he : ("Jane^Smith" : String) = "Jane" ++ "^" ++ "Smith" := rfl
    rw [he]
    exact pid_contains_name _ _ _
  · exact (utf8_pyJoin_extract _ _ _ _ _ _).2
  · have he : ("CT002^CT CHEST W CONTRAST" : String) = study_code "CT" := rfl
    rw [he]
    exact ais_contains_code _ _

/-- Concrete input for the C2 counterexample: a patient name with two
spaces. -/
def c2_inp : CallInput := ⟨"Mary Ann Smith", none, "MRI", ⟨2026, 10, 12, 9, 30, 0⟩, 0, 0⟩

/-- C2 counterexample: "Mary Ann Smith" contains a space, yet the call does
not complete: `split(' ')` yields three parts, the two-variable unpacking
raises `ValueError`, and the exception escapes (`none`). -/
theorem c2_counterexample :
    ("Mary Ann Smith" : String).data.contains ' ' = true ∧
    splitPatientName "Mary Ann Smith" = none ∧
    (create_hl7_message HL7Simulator.init c2_inp).2 = none :=
  ⟨by decide, by decide, rfl⟩

/-- C2 (amended): a name with no space becomes the last name with first
name `"Test"`; a name with exactly one space is split there into
`(last, first)` and the call completes; a name with two or more spaces
makes the call raise. -/
theorem c2_patient_name_split (st : HL7Simulator) (inp : CallInput) :
    (inp.patient_name.data.count ' ' = 0 →
      splitPatientName inp.patient_name = some (inp.patient_name, "Test") ∧
      (create_hl7_message st inp).2.isSome = true) ∧
    (inp.patient_name.data.count ' ' = 1 →
      ∃ last first, splitPatientName inp.patient_name = some (last, first) ∧
        inp.patient_name = last ++ " " ++ first ∧
        last.data.contains ' ' = false ∧ first.data.contains ' ' = false ∧
        (create_hl7_message st inp).2.isSome = true) ∧
    (2 ≤ inp.patient_name.data.count ' ' →
      splitPatientName inp.patient_name = none ∧
      (create_hl7_message st inp).2 = none) := by
  obtain ⟨pn, mrn, modality, now, md, sd⟩ := inp
  refine ⟨?_, ?_, ?_⟩
  · intro h
    have hs := splitPatientName_no_space h
    refine ⟨hs, ?_⟩
    rw [create_snd_isSome]
    show (splitPatientName pn).isSome = true
    rw [hs]
    rfl
  · intro h
    obtain ⟨l, f, hs, heq, hl, hf⟩ := splitPatientName_one_space h
    refine ⟨l, f, hs, heq, hl, hf, ?_⟩
    rw [create_snd_isSome]
    show (splitPatientName pn).isSome = true
    rw [hs]
    rfl
  · intro h
    have hs := splitPatientName_many_spaces h
    refine ⟨hs, ?_⟩
    rw [create_eq_none hs]

/-- Concrete input for the C2 witness. -/
def c2w_inp : CallInput := ⟨"John Doe", none, "US", ⟨2026, 10, 12, 9, 30, 0⟩, 3, 4⟩

/-- C2 witness: a one-space name splits at that space and the call
completes. -/
theorem c2_patient_name_split_witness :
    ∃ last first, splitPatientName c2w_inp.patient_name = some (last, first) ∧
      c2w_inp.patient_name = last ++ " " ++ first ∧
      last.data.contains ' ' = false ∧ first.data.contains ' ' = false ∧
      (create_hl7_message HL7Simulator.init c2w_inp).2.isSome = true :=
  (c2_patient_name_split HL7Simulator.init c2w_inp).2.1 (by decide)

/-- C3: in every successfully produced message one and the same timestamp
string is embedded in the SCH, AIS and AIP segments; it is 12 digits
(`YYYYMMDDHHMM`, minute precision) and equals the creation instant plus
exactly 120 minutes. -/
theorem c3_appointment_timestamp (st : HL7Simulator) (inp : CallInput) (bs : List Nat)
    (hv : inp.now.Valid) (hy : (addHours inp.now 2).year ≤ 9999)
    (h : (create_hl7_message st inp).2 = some bs) :
    ∃ t last first,
      splitPatientName inp.patient_name = some (last, first) ∧
      bs = utf8Encode ("\x0B" ++ pyJoin "\r"
        [msh_segment (fmtYMDHMS inp.now) ("MSG" ++ pyFmt 6 (st.message_count + 1)),
         sch_segment (decRepr (randint 1000 9999 inp.schDraw)) t,
         pid_segment (genMrn inp.mrn inp.mrnDraw) last first,
         rgs_segment,
         ais_segment (study_code inp.modality) t,
         aip_segment t] ++ "\x1C\x0D") ∧
      strContains (sch_segment (decRepr (randint 1000 9999 inp.schDraw)) t) t ∧
      strContains (ais_segment (study_code inp.modality) t) t ∧
      strContains (aip_segment t) t ∧
      t.length = 12 ∧ (∀ c ∈ t.data, c.isDigit = true) ∧
      t = fmtYMDHM (addMinutes inp.now 120) := by
  obtain ⟨pn, mrn, modality, now, md, sd⟩ := inp
  have hvn : now.Valid := hv
  obtain ⟨hb1, hb2, hb3, hb4⟩ := addHours_two_bounds hvn
  have hmin : now.minute ≤ 59 := hvn.2.2.2.2.2.2.2.1
  rcases hsp : splitPatientName pn with _ | ⟨ln, fn⟩
  · rw [create_eq_none hsp] at h
    simp at h
  · rw [create_eq_some hsp] at h
    simp at h
    refine ⟨fmtYMDHM (addHours now 2), ln, fn, rfl, h.symm, sch_contains_apt _ _,
      ais_contains_apt _ _, aip_contains_apt _, ?_, fmtYMDHM_mem_isDigit _, ?_⟩
    · exact fmtYMDHM_length hy (by omega) (by omega) (by omega) (by omega)
    · rw [addMinutes_120 hmin]

/-- Concrete input for the C3 witness. -/
def c3w_inp : CallInput := ⟨"Mary Williams", none, "US", ⟨2026, 3, 1, 23, 45, 10⟩, 42, 99⟩

/-- The bytes the C3 witness call produces. -/
def c3w_bytes : List Nat := ((create_hl7_message HL7Simulator.init c3w_inp).2).getD []

/-- C3 witness: at a concrete valid instant the appointment timestamp has
the 12-digit minute-precision format. -/
theorem c3_appointment_timestamp_witness :
    (fmtYMDHM (addMinutes c3w_inp.now 120)).length = 12 := by
  obtain ⟨t, l, f, hsp, hbs, h1, h2, h3, hlen, hdig, ht⟩ :=
    c3_appointment_timestamp HL7Simulator.init c3w_inp c3w_bytes
      (by decide) (by decide) rfl
  rw [← ht]
  exact hlen

/-- C10 witness: the empty-MRN call coincides with the `None`-MRN call at a
concrete input. -/
theorem c10_empty_mrn_witness :
    create_hl7_message HL7Simulator.init
        ⟨"John Doe", some "", "CT", ⟨2026, 10, 12, 9, 30, 0⟩, 7, 8⟩ =
      create_hl7_message HL7Simulator.init
        ⟨"John Doe", none, "CT", ⟨2026, 10, 12, 9, 30, 0⟩, 7, 8⟩ :=
  (c10_empty_mrn HL7Simulator.init
    ⟨"John Doe", some "", "CT", ⟨2026, 10, 12, 9, 30, 0⟩, 7, 8⟩ rfl).2.2.2.2.2.2

end HL7Sim
